import Mathlib

/-!
Verification development for the time-series feature-engineering notebook
(`basic_feature_engineering_with_time_series_data_in_python.ipynb`).

The notebook builds supervised-learning tables from a daily-temperature
series using the tabular library's `shift`, `rolling` and `expanding`
operations.  A series is modelled as a `List (Option ℚ)`: `none` is a
missing value (the library's NaN), `some q` a defined observation.

Semantics of the embedded library operations, as exercised by the notebook:
* `shift k` at row `i` yields the original cell at index `i - k`, missing
  when that index is out of range (this covers negative `k`, e.g.
  `shift (-1)` used for the expanding-window target column);
* `rolling(window = w)` with the default minimum-period count (equal to
  `w`): at row `i` the window holds the cells at rows
  `max (0, i+1-w) .. i`; the aggregate is defined only when `w` of those
  cells are defined, and is then taken over exactly those `w` values;
* `expanding()` with the default minimum-period count `1`: at row `i` the
  aggregate is taken over the defined cells among rows `0 .. i`, and is
  defined as soon as at least one of them is defined.
-/

namespace TSFeatures

/-- Cell `j` of a series: the value stored there, or `none` when the entry
is missing or `j` is out of range. -/
def cellN (xs : List (Option ℚ)) (j : ℕ) : Option ℚ :=
  xs[j]?.join

/-- Cell access at a possibly negative index: always missing below `0`. -/
def cellZ (xs : List (Option ℚ)) (j : ℤ) : Option ℚ :=
  if 0 ≤ j then cellN xs j.toNat else none

/-- Row `i` of `shift(k)` applied to `xs`: the original cell at index
`i - k`, missing when out of range. -/
def shiftCell (k : ℤ) (xs : List (Option ℚ)) (i : ℕ) : Option ℚ :=
  cellZ xs ((i : ℤ) - k)

/-- The library's `shift(k)`: a series of the same length whose row `i`
holds the original value at index `i - k`. -/
def shift (k : ℤ) (xs : List (Option ℚ)) : List (Option ℚ) :=
  (List.range xs.length).map (shiftCell k xs)

/-- Mean of a list of rationals (sum divided by length). -/
def meanQ (l : List ℚ) : ℚ := l.sum / l.length

/-- Minimum of a list of rationals (`0` on the empty list, which the
aggregations below never reach). -/
def minQ : List ℚ → ℚ
  | [] => 0
  | x :: r => r.foldl min x

/-- Maximum of a list of rationals (`0` on the empty list, which the
aggregations below never reach). -/
def maxQ : List ℚ → ℚ
  | [] => 0
  | x :: r => r.foldl max x

/-- The cells inside the width-`w` rolling window ending at row `i`:
rows `max (0, i+1-w) .. i`. -/
def rollEntries (xs : List (Option ℚ)) (w i : ℕ) : List (Option ℚ) :=
  (List.range' (i + 1 - w) (i + 1 - (i + 1 - w))).map (cellN xs)

/-- Row `i` of `rolling(window = w).agg()` with the library's default
minimum-period count (`w`): defined only when the window holds `w`
defined cells, and then the aggregate of exactly those values. -/
def rollCell (agg : List ℚ → ℚ) (w : ℕ) (xs : List (Option ℚ)) (i : ℕ) :
    Option ℚ :=
  if w ≤ ((rollEntries xs w i).filterMap id).length
  then some (agg ((rollEntries xs w i).filterMap id)) else none

/-- The rolling-aggregate series. -/
def rolling (agg : List ℚ → ℚ) (w : ℕ) (xs : List (Option ℚ)) :
    List (Option ℚ) :=
  (List.range xs.length).map (rollCell agg w xs)

/-- Row `i` of `expanding().agg()` with the library's default
minimum-period count (`1`): the aggregate of the defined cells among rows
`0 .. i`, defined as soon as one of them is. -/
def expandCell (agg : List ℚ → ℚ) (xs : List (Option ℚ)) (i : ℕ) :
    Option ℚ :=
  if 1 ≤ (((List.range (i + 1)).map (cellN xs)).filterMap id).length
  then some (agg (((List.range (i + 1)).map (cellN xs)).filterMap id))
  else none

/-- The expanding-aggregate series. -/
def expanding (agg : List ℚ → ℚ) (xs : List (Option ℚ)) :
    List (Option ℚ) :=
  (List.range xs.length).map (expandCell agg xs)

/-- First five values of the daily-minimum-temperature series used by every
notebook cell: 20.7, 17.9, 18.8, 14.6, 15.8. -/
def tempsHead : List (Option ℚ) :=
  [some (207/10), some (179/10), some (188/10), some (146/10), some (158/10)]

/-- The three-value input of the single-lag example: 20.7, 17.9, 18.8. -/
def temps3 : List (Option ℚ) :=
  [some (207/10), some (179/10), some (188/10)]

/-- Notebook cell `concat([temps.shift(1), temps])` with columns
`t-1, t+1`: one `(lag-1 feature, target)` pair per row. -/
def singleLagTable (xs : List (Option ℚ)) : List (Option ℚ × Option ℚ) :=
  (List.range xs.length).map (fun i => (shiftCell 1 xs i, cellN xs i))

/-- Notebook cell `concat([temps.shift(3), temps.shift(2), temps.shift(1),
temps])` with columns `t-3, t-2, t-1, t+1`. -/
def lagTable (xs : List (Option ℚ)) :
    List (Option ℚ × Option ℚ × Option ℚ × Option ℚ) :=
  (List.range xs.length).map
    (fun i => (shiftCell 3 xs i, shiftCell 2 xs i, shiftCell 1 xs i, cellN xs i))

/-- Notebook cell `shifted = temps.shift(1); shifted.rolling(window=2).mean()`
concatenated with the target column `temps`. -/
def rollingMean2Table (xs : List (Option ℚ)) : List (Option ℚ × Option ℚ) :=
  (List.range xs.length).map
    (fun i => (rollCell meanQ 2 (shift 1 xs) i, cellN xs i))

/-- Notebook cell `shifted = temps.shift(width - 1);
window = shifted.rolling(window=width);
concat([window.min(), window.mean(), window.max(), temps])`. -/
def rollingStatsTable (w : ℕ) (xs : List (Option ℚ)) :
    List (Option ℚ × Option ℚ × Option ℚ × Option ℚ) :=
  (List.range xs.length).map
    (fun i =>
      (rollCell minQ w (shift ((w : ℤ) - 1) xs) i,
       rollCell meanQ w (shift ((w : ℤ) - 1) xs) i,
       rollCell maxQ w (shift ((w : ℤ) - 1) xs) i,
       cellN xs i))

/-- Notebook cell `window = temps.expanding();
concat([window.min(), window.mean(), window.max(), temps.shift(-1)])`. -/
def expandingTable (xs : List (Option ℚ)) :
    List (Option ℚ × Option ℚ × Option ℚ × Option ℚ) :=
  (List.range xs.length).map
    (fun i =>
      (expandCell minQ xs i, expandCell meanQ xs i, expandCell maxQ xs i,
       shiftCell (-1) xs i))

/-- A statistic as the specification words it: computed over the defined
values among the given window cells, undefined when none is defined. -/
def specStat (agg : List ℚ → ℚ) (cells : List (Option ℚ)) : Option ℚ :=
  match cells.filterMap id with
  | [] => none
  | l => some (agg l)

/-- The eligible rolling window as the specification words it: the cells at
indices `max (0, i-w) .. i-1` of the original series. -/
def specRollWindow (xs : List (Option ℚ)) (w i : ℕ) : List (Option ℚ) :=
  (List.range' (i - w) (i - (i - w))).map (cellN xs)

/-- The window of original-series indices actually aggregated by the
notebook's `shift(w-1)` followed by `rolling(window=w)` at row `i`:
the `w` consecutive cells ending at index `i - (w-1)`. -/
def shiftRollWindow (xs : List (Option ℚ)) (w i : ℕ) : List (Option ℚ) :=
  (List.range' (i + 2 - 2 * w) w).map (cellN xs)

/-- The library's all-or-nothing rolling aggregation rule applied to an
explicit list of window cells: defined only when `w` of them are defined. -/
def fullWindowStat (agg : List ℚ → ℚ) (w : ℕ) (cells : List (Option ℚ)) :
    Option ℚ :=
  if w ≤ (cells.filterMap id).length
  then some (agg (cells.filterMap id)) else none

/-! ### Basic facts about cells, shift and rolling -/

theorem cellN_eq_none_of_le (xs : List (Option ℚ)) (j : ℕ)
    (h : xs.length ≤ j) : cellN xs j = none := by
  simp [cellN, List.getElem?_eq_none h]

theorem cellN_shift (k : ℤ) (xs : List (Option ℚ)) (j : ℕ)
    (hj : j < xs.length) : cellN (shift k xs) j = shiftCell k xs j := by
  unfold cellN shift
  rw [List.getElem?_map, List.getElem?_range (by simpa using hj)]
  rfl

theorem shiftCell_of_le (k : ℕ) (xs : List (Option ℚ)) (j : ℕ)
    (h : k ≤ j) : shiftCell (k : ℤ) xs j = cellN xs (j - k) := by
  unfold shiftCell cellZ
  rw [if_pos (by omega)]
  congr 1
  omega

theorem shiftCell_eq_none_of_lt (k : ℕ) (xs : List (Option ℚ)) (j : ℕ)
    (h : j < k) : shiftCell (k : ℤ) xs j = none := by
  unfold shiftCell cellZ
  rw [if_neg (by omega)]

/-- The lag rule of every `shift(k)` feature column: row `i` holds the
original cell at `i - k` when `k ≤ i`, and is missing otherwise. -/
theorem shiftCell_formula (k : ℕ) (xs : List (Option ℚ)) (i : ℕ) :
    shiftCell (k : ℤ) xs i = if k ≤ i then cellN xs (i - k) else none := by
  by_cases h : k ≤ i
  · rw [if_pos h, shiftCell_of_le k xs i h]
  · rw [if_neg h, shiftCell_eq_none_of_lt k xs i (by omega)]

/-- What the notebook's `shift(w-1)` + `rolling(window=w)` composition
computes at row `i`: nothing before row `2w-2`, and from then on the
all-or-nothing aggregate of the `w` original cells at indices
`i-2w+2 .. i-w+1`. -/
theorem rollCell_shift_eq (agg : List ℚ → ℚ) (w : ℕ) (xs : List (Option ℚ))
    (i : ℕ) (hw : 1 ≤ w) (hi : i < xs.length) :
    rollCell agg w (shift ((w : ℤ) - 1) xs) i =
      if 2 * w ≤ i + 2 then fullWindowStat agg w (shiftRollWindow xs w i)
      else none := by
  have hcast : ((w : ℤ) - 1) = ((w - 1 : ℕ) : ℤ) := by omega
  have hcell : ∀ j ∈ List.range' (i + 1 - w) (i + 1 - (i + 1 - w)),
      cellN (shift ((w : ℤ) - 1) xs) j = shiftCell ((w : ℤ) - 1) xs j := by
    intro j hj
    have hj2 : j < i + 1 := by
      have := (List.mem_range'_1.mp hj).2
      omega
    exact cellN_shift _ xs j (by omega)
  unfold rollCell rollEntries
  rw [List.map_congr_left hcell]
  by_cases hcase : 2 * w ≤ i + 2
  · rw [if_pos hcase]
    have hlo : i + 1 - (i + 1 - w) = w := by omega
    have hmem : ∀ j ∈ List.range' (i + 1 - w) (i + 1 - (i + 1 - w)),
        shiftCell ((w : ℤ) - 1) xs j = cellN xs (j - (w - 1)) := by
      intro j hj
      have := (List.mem_range'_1.mp hj).1
      rw [hcast]
      exact shiftCell_of_le (w - 1) xs j (by omega)
    rw [List.map_congr_left hmem, hlo]
    have hrange : List.range' (i + 1 - w) w =
        (List.range' (i + 2 - 2 * w) w).map (fun t => (w - 1) + t) := by
      rw [List.map_add_range']
      congr 1
      omega
    rw [hrange, List.map_map]
    have hcomp : ((fun j => cellN xs (j - (w - 1))) ∘ fun t => (w - 1) + t)
        = cellN xs := by
      funext t
      simp only [Function.comp]
      congr 1
      omega
    rw [hcomp]
    rfl
  · rw [if_neg hcase]
    have hw2 : 2 ≤ w := by omega
    set lo := i + 1 - w with hlo_def
    set len := i + 1 - lo with hlen_def
    have hnone : ∀ j ∈ List.range' lo (min len (w - 1 - lo)),
        shiftCell ((w : ℤ) - 1) xs j = none := by
      intro j hj
      have h1 := (List.mem_range'_1.mp hj)
      rw [hcast]
      exact shiftCell_eq_none_of_lt (w - 1) xs j (by omega)
    have hsplit : List.range' lo len =
        List.range' lo (min len (w - 1 - lo)) ++
          List.range' (lo + min len (w - 1 - lo))
            (len - min len (w - 1 - lo)) := by
      rw [List.range'_append_1]
      congr 1
      omega
    rw [if_neg]
    rw [hsplit, List.map_append, List.filterMap_append]
    have hfst : (List.map (shiftCell ((w : ℤ) - 1) xs)
        (List.range' lo (min len (w - 1 - lo)))).filterMap id = [] := by
      rw [List.filterMap_eq_nil_iff]
      intro a ha
      rcases List.mem_map.mp ha with ⟨j, hj, rfl⟩
      simpa using hnone j hj
    rw [hfst, List.nil_append]
    have hbound : ((List.map (shiftCell ((w : ℤ) - 1) xs)
        (List.range' (lo + min len (w - 1 - lo))
          (len - min len (w - 1 - lo)))).filterMap id).length ≤
        len - min len (w - 1 - lo) := by
      calc ((List.map (shiftCell ((w : ℤ) - 1) xs)
          (List.range' (lo + min len (w - 1 - lo))
            (len - min len (w - 1 - lo)))).filterMap id).length
        ≤ (List.map (shiftCell ((w : ℤ) - 1) xs)
            (List.range' (lo + min len (w - 1 - lo))
              (len - min len (w - 1 - lo)))).length :=
          List.length_filterMap_le _ _
        _ = len - min len (w - 1 - lo) := by simp
    have : len - min len (w - 1 - lo) < w := by omega
    omega

theorem shiftCell_neg_one (xs : List (Option ℚ)) (i : ℕ) :
    shiftCell (-1) xs i = cellN xs (i + 1) := by
  unfold shiftCell cellZ
  have ht : ((i : ℤ) - (-1)).toNat = i + 1 := by omega
  rw [if_pos (by omega), ht]

/-- A list whose defined part is as long as the list itself consists
entirely of defined entries. -/
theorem filterMap_id_full {l : List (Option ℚ)}
    (h : l.length ≤ (l.filterMap id).length) :
    l = (l.filterMap id).map some := by
  induction l with
  | nil => rfl
  | cons a t ih =>
    cases a with
    | none =>
      exfalso
      have hstep : (none :: t).filterMap id = t.filterMap id := rfl
      rw [hstep] at h
      have := List.length_filterMap_le (id : Option ℚ → Option ℚ) t
      simp at h
      omega
    | some b =>
      have hstep : (some b :: t).filterMap id = b :: t.filterMap id := rfl
      rw [hstep] at h ⊢
      simp only [List.length_cons, List.map_cons] at h ⊢
      have ht : t = (t.filterMap id).map some := ih (by omega)
      rw [← ht]

/-- The library's expanding aggregation coincides with the specification's
exclusion rule: the aggregate of the defined prefix cells, undefined only
when none of them is defined. -/
theorem expandCell_eq_specStat (agg : List ℚ → ℚ) (xs : List (Option ℚ))
    (i : ℕ) :
    expandCell agg xs i =
      specStat agg ((List.range (i + 1)).map (cellN xs)) := by
  cases h : ((List.range (i + 1)).map (cellN xs)).filterMap id with
  | nil => simp [expandCell, specStat, h]
  | cons a t => simp [expandCell, specStat, h]

/-! ### Claim C1 -/

/-- Claim C1 is false as stated: it places the rolling window of the
`shift(width-1)` + `rolling(window=width)` construction at indices
`max (0, i-W) .. i-1`.  At width `3`, row `4` of the notebook's own
example, the construction aggregates the values at indices `0 .. 2`
(`[20.7, 17.9, 18.8]`), whereas the claimed window `1 .. 3` holds
`[17.9, 18.8, 14.6]`; the two means differ (`287/15` vs `171/10`). -/
theorem C1_counterexample :
    rollCell meanQ 3 (shift ((3 : ℤ) - 1) tempsHead) 4 =
      some (meanQ [207/10, 179/10, 188/10]) ∧
    specStat meanQ (specRollWindow tempsHead 3 4) =
      some (meanQ [179/10, 188/10, 146/10]) ∧
    rollCell meanQ 3 (shift ((3 : ℤ) - 1) tempsHead) 4 ≠
      specStat meanQ (specRollWindow tempsHead 3 4) := by
  have h1 : rollCell meanQ 3 (shift ((3 : ℤ) - 1) tempsHead) 4 =
      some (meanQ [207/10, 179/10, 188/10]) := rfl
  have h2 : specStat meanQ (specRollWindow tempsHead 3 4) =
      some (meanQ [179/10, 188/10, 146/10]) := rfl
  refine ⟨h1, h2, ?_⟩
  rw [h1, h2]
  norm_num [meanQ]

/-- Claim C1 (amended): for every sequence, every rolling width `w ≥ 1` and
every row `i`, the rolling-statistic fields of row `i` of the notebook's
shift-then-roll table are the all-or-nothing aggregates of the `w`
contiguous cells at indices `i-2(w-1) .. i-(w-1)` — the window ends `w-1`
steps before the target index, not at `i-1` — and the fields are
undefined whenever `i < 2(w-1)`. -/
theorem C1_amended (w : ℕ) (xs : List (Option ℚ)) (i : ℕ)
    (hw : 1 ≤ w) (hi : i < xs.length) :
    (rollingStatsTable w xs)[i]? = some
      (if 2 * w ≤ i + 2 then fullWindowStat minQ w (shiftRollWindow xs w i) else none,
       if 2 * w ≤ i + 2 then fullWindowStat meanQ w (shiftRollWindow xs w i) else none,
       if 2 * w ≤ i + 2 then fullWindowStat maxQ w (shiftRollWindow xs w i) else none,
       cellN xs i) := by
  unfold rollingStatsTable
  rw [List.getElem?_map, List.getElem?_range (by simpa using hi)]
  simp only [Option.map_some']
  rw [rollCell_shift_eq minQ w xs i hw hi, rollCell_shift_eq meanQ w xs i hw hi,
    rollCell_shift_eq maxQ w xs i hw hi]

/-- Witness for `C1_amended` at width `3`, row `4` of the temperature
series. -/
theorem C1_amended_witness :
    (rollingStatsTable 3 tempsHead)[4]? = some
      (if 2 * 3 ≤ 4 + 2 then fullWindowStat minQ 3 (shiftRollWindow tempsHead 3 4) else none,
       if 2 * 3 ≤ 4 + 2 then fullWindowStat meanQ 3 (shiftRollWindow tempsHead 3 4) else none,
       if 2 * 3 ≤ 4 + 2 then fullWindowStat maxQ 3 (shiftRollWindow tempsHead 3 4) else none,
       cellN tempsHead 4) :=
  C1_amended 3 tempsHead 4 (by decide) (by decide)

/-! ### Claim C2 -/

/-- Claim C2: on the input `[20.7, 17.9, 18.8, 14.6, 15.8]` with width `3`,
row `4` of the rolling table reports `min = 17.9`, `mean = 287/15`
(within `10⁻⁶` of `19.133333`), `max = 20.7`, computed over the window
`[20.7, 17.9, 18.8]`, and the rolling fields of rows `0 .. 3` are all
undefined. -/
theorem C2_width3_row4 :
    (rollingStatsTable 3 tempsHead)[4]? =
      some (some (179/10), some (287/15), some (207/10), some (158/10)) ∧
    rollCell meanQ 3 (shift ((3 : ℤ) - 1) tempsHead) 4 =
      some (meanQ [207/10, 179/10, 188/10]) ∧
    |287/15 - (19133333 : ℚ)/1000000| ≤ 1/1000000 ∧
    (rollingStatsTable 3 tempsHead)[0]? = some (none, none, none, some (207/10)) ∧
    (rollingStatsTable 3 tempsHead)[1]? = some (none, none, none, some (179/10)) ∧
    (rollingStatsTable 3 tempsHead)[2]? = some (none, none, none, some (188/10)) ∧
    (rollingStatsTable 3 tempsHead)[3]? = some (none, none, none, some (146/10)) := by
  have h4 : (rollingStatsTable 3 tempsHead)[4]? =
      some (some (minQ [207/10, 179/10, 188/10]), some (meanQ [207/10, 179/10, 188/10]),
            some (maxQ [207/10, 179/10, 188/10]), some (158/10)) := rfl
  refine ⟨?_, rfl, ?_, rfl, rfl, rfl, rfl⟩
  · rw [h4]
    norm_num [minQ, maxQ, meanQ, min_def, max_def]
  · rw [abs_sub_le_iff]
    norm_num

/-! ### Claim C3 -/

/-- Claim C3 is false as stated for rolling windows: it requires a
statistic over a partially defined window to be computed over the defined
subset.  At row `1` of the notebook's `shift(1)` + `rolling(window=2)`
mean table, the window is `[missing, 20.7]`; the defined-subset mean the
claim requires is `20.7`, but the construction (default minimum-period
count = width) yields an undefined field. -/
theorem C3_counterexample :
    (rollingMean2Table tempsHead)[1]? = some (none, some (179/10)) ∧
    rollEntries (shift 1 tempsHead) 2 1 = [none, some (207/10)] ∧
    specStat meanQ [none, some (207/10)] = some (meanQ [207/10]) ∧
    meanQ [207/10] = 207/10 ∧
    rollCell meanQ 2 (shift 1 tempsHead) 1 = none ∧
    (none : Option ℚ) ≠ some (207/10) := by
  refine ⟨rfl, rfl, rfl, ?_, rfl, by simp⟩
  norm_num [meanQ]

/-- Claim C3 (amended): a rolling statistic is all-or-nothing — undefined
whenever fewer than `w` window cells are defined, and otherwise the
aggregate of a fully defined window of exactly `w` values (so undefined
entries are never treated as `0`, and a fully undefined or short window is
undefined); expanding statistics do follow the claimed rule: they exclude
undefined entries, aggregate the defined prefix values (mean denominator =
count of defined values), and are undefined only when no prefix value is
defined. -/
theorem C3_amended :
    (∀ (agg : List ℚ → ℚ) (w : ℕ) (xs : List (Option ℚ)) (i : ℕ),
        ((rollEntries xs w i).filterMap id).length < w → rollCell agg w xs i = none)
    ∧ (∀ (agg : List ℚ → ℚ) (w : ℕ) (xs : List (Option ℚ)) (i : ℕ),
        w ≤ ((rollEntries xs w i).filterMap id).length →
          rollEntries xs w i = ((rollEntries xs w i).filterMap id).map some ∧
          ((rollEntries xs w i).filterMap id).length = w ∧
          rollCell agg w xs i = some (agg ((rollEntries xs w i).filterMap id)))
    ∧ (∀ (agg : List ℚ → ℚ) (xs : List (Option ℚ)) (i : ℕ),
        expandCell agg xs i = specStat agg ((List.range (i + 1)).map (cellN xs))) := by
  refine ⟨?_, ?_, fun agg xs i => expandCell_eq_specStat agg xs i⟩
  · intro agg w xs i h
    unfold rollCell
    rw [if_neg (by omega)]
  · intro agg w xs i h
    have hle := List.length_filterMap_le (id : Option ℚ → Option ℚ) (rollEntries xs w i)
    have hlen : (rollEntries xs w i).length ≤ w := by
      simp only [rollEntries, List.length_map, List.length_range']
      omega
    refine ⟨filterMap_id_full (by omega), by omega, ?_⟩
    unfold rollCell
    rw [if_pos h]

/-- Witness for `C3_amended`: the partially defined window at row `1` of
the rolling-mean table, the fully defined window at row `4` of the width-3
table, and the expanding aggregate at row `3`. -/
theorem C3_amended_witness :
    rollCell meanQ 2 (shift 1 tempsHead) 1 = none ∧
    (rollEntries (shift ((3 : ℤ) - 1) tempsHead) 3 4 =
        ((rollEntries (shift ((3 : ℤ) - 1) tempsHead) 3 4).filterMap id).map some ∧
      ((rollEntries (shift ((3 : ℤ) - 1) tempsHead) 3 4).filterMap id).length = 3 ∧
      rollCell meanQ 3 (shift ((3 : ℤ) - 1) tempsHead) 4 =
        some (meanQ ((rollEntries (shift ((3 : ℤ) - 1) tempsHead) 3 4).filterMap id))) ∧
    expandCell meanQ tempsHead 3 =
      specStat meanQ ((List.range (3 + 1)).map (cellN tempsHead)) :=
  ⟨C3_amended.1 meanQ 2 (shift 1 tempsHead) 1 (by decide),
   C3_amended.2.1 meanQ 3 (shift ((3 : ℤ) - 1) tempsHead) 4 (by decide),
   C3_amended.2.2 meanQ tempsHead 3⟩

/-! ### Claim C4 -/

/-- Claim C4: the lag-`k` field of row `i` equals the sequence value at
index `i - k` exactly when `k ≤ i`, and is missing (never wrapped,
clamped or defaulted) when `i < k`; and every row of the notebook's
three-lag table holds exactly these `shift(3)/shift(2)/shift(1)` fields. -/
theorem C4_lag_rule :
    (∀ (k i : ℕ) (xs : List (Option ℚ)),
        shiftCell (k : ℤ) xs i = if k ≤ i then cellN xs (i - k) else none)
    ∧ ∀ (xs : List (Option ℚ)) (i : ℕ), i < xs.length →
        (lagTable xs)[i]? =
          some (shiftCell 3 xs i, shiftCell 2 xs i, shiftCell 1 xs i, cellN xs i) := by
  refine ⟨fun k i xs => shiftCell_formula k xs i, ?_⟩
  intro xs i hi
  unfold lagTable
  rw [List.getElem?_map, List.getElem?_range (by simpa using hi)]
  rfl

/-- Witness for `C4_lag_rule` at lags `3` and `2` and row `0` of the
three-lag table. -/
theorem C4_lag_rule_witness :
    (shiftCell ((3 : ℕ) : ℤ) tempsHead 1 =
      if 3 ≤ 1 then cellN tempsHead (1 - 3) else none) ∧
    (shiftCell ((2 : ℕ) : ℤ) tempsHead 4 =
      if 2 ≤ 4 then cellN tempsHead (4 - 2) else none) ∧
    (lagTable tempsHead)[0]? =
      some (shiftCell 3 tempsHead 0, shiftCell 2 tempsHead 0, shiftCell 1 tempsHead 0,
        cellN tempsHead 0) :=
  ⟨C4_lag_rule.1 3 1 tempsHead, C4_lag_rule.1 2 4 tempsHead,
   C4_lag_rule.2 tempsHead 0 (by decide)⟩

/-! ### Claim C5 -/

/-- Claim C5 is false as stated: the expanding fields of row `i` cover
indices `0 .. i`, not `0 .. i-1`.  On the example input the expanding mean
at index `4` is the mean of all five values, `439/25 = 17.56`, not the
claimed `18.0`. -/
theorem C5_counterexample :
    expandCell meanQ tempsHead 4 =
      some (meanQ [207/10, 179/10, 188/10, 146/10, 158/10]) ∧
    meanQ [207/10, 179/10, 188/10, 146/10, 158/10] = 439/25 ∧
    expandCell meanQ tempsHead 4 ≠ some 18 := by
  have h1 : expandCell meanQ tempsHead 4 =
      some (meanQ [207/10, 179/10, 188/10, 146/10, 158/10]) := rfl
  have h2 : meanQ [207/10, 179/10, 188/10, 146/10, 158/10] = (439 : ℚ)/25 := by
    norm_num [meanQ]
  refine ⟨h1, h2, ?_⟩
  rw [h1, h2]
  norm_num

/-- Claim C5 (amended): row `i` of the expanding table aggregates the
defined values at indices `0 .. i` (with the claimed undefined-exclusion
rule) and pairs them with the target `sequence[i+1]`; the expanding mean
`18.0` over `[20.7, 17.9, 18.8, 14.6]` appears at index `3`, whose target
is `15.8`. -/
theorem C5_amended :
    (∀ (xs : List (Option ℚ)) (i : ℕ), i < xs.length →
        (expandingTable xs)[i]? =
          some (specStat minQ ((List.range (i + 1)).map (cellN xs)),
                specStat meanQ ((List.range (i + 1)).map (cellN xs)),
                specStat maxQ ((List.range (i + 1)).map (cellN xs)),
                cellN xs (i + 1)))
    ∧ expandCell meanQ tempsHead 3 = some 18
    ∧ (expandingTable tempsHead)[3]? =
        some (some (146/10), some 18, some (207/10), some (158/10)) := by
  refine ⟨?_, ?_, ?_⟩
  · intro xs i hi
    unfold expandingTable
    rw [List.getElem?_map, List.getElem?_range (by simpa using hi)]
    simp only [Option.map_some']
    rw [expandCell_eq_specStat minQ xs i, expandCell_eq_specStat meanQ xs i,
      expandCell_eq_specStat maxQ xs i, shiftCell_neg_one xs i]
  · have h : expandCell meanQ tempsHead 3 =
        some (meanQ [207/10, 179/10, 188/10, 146/10]) := rfl
    rw [h]
    norm_num [meanQ]
  · have h : (expandingTable tempsHead)[3]? =
        some (some (minQ [207/10, 179/10, 188/10, 146/10]),
              some (meanQ [207/10, 179/10, 188/10, 146/10]),
              some (maxQ [207/10, 179/10, 188/10, 146/10]),
              some (158/10)) := rfl
    rw [h]
    norm_num [minQ, maxQ, meanQ, min_def, max_def]

/-- Witness for `C5_amended` at row `2` of the expanding table. -/
theorem C5_amended_witness :
    (expandingTable tempsHead)[2]? =
      some (specStat minQ ((List.range (2 + 1)).map (cellN tempsHead)),
            specStat meanQ ((List.range (2 + 1)).map (cellN tempsHead)),
            specStat maxQ ((List.range (2 + 1)).map (cellN tempsHead)),
            cellN tempsHead (2 + 1)) :=
  C5_amended.1 tempsHead 2 (by decide)

/-! ### The specification's builder

The notebook contains only the individual library recipes; the `build`
operation, its configuration record, its `InvalidConfiguration` error and
its `target_offset` rule exist only in the specification.  They are
modelled here from the specification's own words (§4.1). -/

/-- Modelled from the spec: the builder's only error kind,
`InvalidConfiguration`; the repository implements no builder, so the error
type is taken from §7 of the specification. -/
inductive BuildError
  | invalidConfiguration
deriving DecidableEq

/-- Modelled from the spec: one rolling-window request, a width together
with the statistic names to compute (§4.1, `rolling_windows`). -/
structure RollingSpec where
  width : ℤ
  stats : List String
deriving DecidableEq

/-- Modelled from the spec: the builder configuration of §4.1 (`lags`,
`rolling_windows`, `expanding_statistics`, `target_offset`; calendar
fields are orthogonal to every claim and omitted). -/
structure Config where
  lags : List ℤ
  rollingWindows : List RollingSpec
  expandingStats : List String
  targetOffset : ℤ
deriving DecidableEq

/-- Modelled from the spec: the recognized statistic names
`{min, mean, max, stdev, sum}`. -/
def knownStats : List String := ["min", "mean", "max", "stdev", "sum"]

/-- Sum statistic. -/
def sumQ (l : List ℚ) : ℚ := l.sum

/-- Modelled from the spec: sample variance with Bessel's correction.  The
specification's `stdev` is the square root of this quantity; square roots
do not exist in `ℚ` and no claim depends on a `stdev` value, so the field
carries the variance. -/
def sampleVarQ (l : List ℚ) : ℚ :=
  (l.map (fun x => (x - meanQ l) ^ 2)).sum / ((l.length : ℚ) - 1)

/-- Modelled from the spec: the aggregation function of each statistic
name (the catch-all branch is unreachable after validation). -/
def aggOf : String → (List ℚ → ℚ)
  | "min" => minQ
  | "mean" => meanQ
  | "max" => maxQ
  | "sum" => sumQ
  | "stdev" => sampleVarQ
  | _ => fun _ => 0

/-- Modelled from the spec: configuration validation — every lag positive,
every rolling width positive, every statistic name recognized. -/
def configOk (cfg : Config) : Bool :=
  cfg.lags.all (fun k => decide (0 < k)) &&
  cfg.rollingWindows.all
    (fun r => decide (0 < r.width) && r.stats.all (fun s => decide (s ∈ knownStats))) &&
  cfg.expandingStats.all (fun s => decide (s ∈ knownStats))

/-- Modelled from the spec: the target rule (§4.1 rule 5) — the value at
index `i + target_offset` when that index is in range, else undefined. -/
def targetField (off : ℤ) (xs : List (Option ℚ)) (i : ℕ) : Option ℚ :=
  if 0 ≤ (i : ℤ) + off ∧ (i : ℤ) + off < (xs.length : ℤ)
  then cellN xs ((i : ℤ) + off).toNat else none

/-- Modelled from the spec: one output row of the builder. -/
structure FeatureRow where
  lagFields : List (Option ℚ)
  rollingFields : List (Option ℚ)
  expandingFields : List (Option ℚ)
  target : Option ℚ
deriving DecidableEq

/-- Modelled from the spec: the output table — named columns plus rows. -/
structure FeatureTable where
  colNames : List String
  rows : List FeatureRow
deriving DecidableEq

/-- Modelled from the spec: field names derived from the configuration
alone (no name depends on data content). -/
def configColNames (cfg : Config) : List String :=
  cfg.lags.map (fun k => "lag_" ++ toString k) ++
  cfg.rollingWindows.flatMap
    (fun r => r.stats.map (fun s => "roll_" ++ toString r.width ++ "_" ++ s)) ++
  cfg.expandingStats.map (fun s => "exp_" ++ s) ++
  ["target"]

/-- Modelled from the spec: row `i` of the builder's output — lag fields
by rule 2, rolling fields over the eligible window `max (0, i-w) .. i-1`
by rule 3, expanding fields over `0 .. i-1` by rule 4, target by rule 5. -/
def featureRow (cfg : Config) (xs : List (Option ℚ)) (i : ℕ) : FeatureRow where
  lagFields := cfg.lags.map (fun k => shiftCell k xs i)
  rollingFields := cfg.rollingWindows.flatMap
    (fun r => r.stats.map
      (fun s => specStat (aggOf s) (specRollWindow xs r.width.toNat i)))
  expandingFields := cfg.expandingStats.map
    (fun s => specStat (aggOf s) ((List.range i).map (cellN xs)))
  target := targetField cfg.targetOffset xs i

/-- Modelled from the spec: `build` — `InvalidConfiguration` on an empty
sequence or a malformed configuration, otherwise one row per index. -/
def build (xs : List (Option ℚ)) (cfg : Config) : Except BuildError FeatureTable :=
  if xs.isEmpty || !configOk cfg
  then Except.error BuildError.invalidConfiguration
  else Except.ok ⟨configColNames cfg, (List.range xs.length).map (featureRow cfg xs)⟩

/-- Rows of a build result (none on error). -/
def tableRows : Except BuildError FeatureTable → List FeatureRow
  | Except.ok t => t.rows
  | Except.error _ => []

/-- Column names of a build result (none on error). -/
def tableNames : Except BuildError FeatureTable → List String
  | Except.ok t => t.colNames
  | Except.error _ => []

/-- A demonstration configuration: lags 1 and 3, a width-3 rolling window
with min/mean/max, an expanding mean, target offset 0. -/
def cfgDemo : Config := ⟨[1, 3], [⟨3, ["min", "mean", "max"]⟩], ["mean"], 0⟩

/-- A configuration with lag 0, which the specification rejects. -/
def cfgBadLag : Config := ⟨[0], [], [], 0⟩

/-! ### Claim C6 -/

/-- Claim C6: for every non-empty sequence and valid configuration,
`build` succeeds with exactly one row per index `0 .. N-1`, in input
order, with column names derived from the configuration alone; row `i`
exists (as `featureRow cfg xs i`, with undefined placeholders) even when
its lookbacks fall out of range. -/
theorem C6_build_shape (xs : List (Option ℚ)) (cfg : Config)
    (hne : xs ≠ []) (hok : configOk cfg = true) :
    (build xs cfg).isOk = true ∧
    (tableRows (build xs cfg)).length = xs.length ∧
    tableNames (build xs cfg) = configColNames cfg ∧
    ∀ i, i < xs.length →
      (tableRows (build xs cfg))[i]? = some (featureRow cfg xs i) := by
  have hcond : (xs.isEmpty || !configOk cfg) = false := by
    simp [hne, hok]
  have hb : build xs cfg =
      Except.ok ⟨configColNames cfg, (List.range xs.length).map (featureRow cfg xs)⟩ := by
    unfold build
    rw [hcond]
    rfl
  rw [hb]
  refine ⟨rfl, by simp [tableRows], rfl, ?_⟩
  intro i hi
  simp only [tableRows]
  rw [List.getElem?_map, List.getElem?_range (by simpa using hi)]
  rfl

/-- Witness for `C6_build_shape` on the three-value input and the
demonstration configuration. -/
theorem C6_build_shape_witness :
    (build temps3 cfgDemo).isOk = true ∧
    (tableRows (build temps3 cfgDemo)).length = temps3.length ∧
    tableNames (build temps3 cfgDemo) = configColNames cfgDemo ∧
    ∀ i, i < temps3.length →
      (tableRows (build temps3 cfgDemo))[i]? = some (featureRow cfgDemo temps3 i) :=
  C6_build_shape temps3 cfgDemo (by decide) (by decide)

/-! ### Claim C7 -/

/-- Claim C7 is false as stated: with `target_offset = -1` the claim's
own general rule (`target = sequence[i + offset]`) makes the target of
row `0` undefined, contradicting the claim's assertion that row `i`'s
target equals `sequence[i].value` (= 20.7 at `i = 0`). -/
theorem C7_counterexample :
    targetField (-1) temps3 0 = none ∧
    cellN temps3 0 = some (207/10) ∧
    targetField (-1) temps3 0 ≠ cellN temps3 0 :=
  ⟨rfl, rfl, fun h => Option.noConfusion h⟩

/-- Claim C7 (amended): the notebook's single-lag framing pairs the lag-1
feature with the current value — on `[20.7, 17.9, 18.8]` the rows are
`(undefined, 20.7), (20.7, 17.9), (17.9, 18.8)` — which is target offset
`0` under the specification's rule (`target = sequence[i]`); and in
general, for every offset, the target field equals
`sequence[i + offset].value` whenever `i + offset` is an in-range index
`j` (the stored observation may itself be missing), and is undefined
whenever `i + offset` falls out of range. -/
theorem C7_amended :
    singleLagTable temps3 =
      [(none, some (207/10)), (some (207/10), some (179/10)),
       (some (179/10), some (188/10))]
    ∧ (∀ (xs : List (Option ℚ)) (i : ℕ), i < xs.length →
        targetField 0 xs i = cellN xs i)
    ∧ (∀ (off : ℤ) (xs : List (Option ℚ)) (i j : ℕ),
        (i : ℤ) + off = (j : ℤ) → j < xs.length →
          targetField off xs i = cellN xs j)
    ∧ (∀ (off : ℤ) (xs : List (Option ℚ)) (i : ℕ),
        ((i : ℤ) + off < 0 ∨ (xs.length : ℤ) ≤ (i : ℤ) + off) →
          targetField off xs i = none) := by
  refine ⟨rfl, ?_, ?_, ?_⟩
  · intro xs i hi
    unfold targetField
    have ht : ((i : ℤ) + 0).toNat = i := by omega
    rw [if_pos ⟨by omega, by omega⟩, ht]
  · intro off xs i j hij hj
    unfold targetField
    have ht : ((i : ℤ) + off).toNat = j := by omega
    rw [if_pos ⟨by omega, by omega⟩, ht]
  · intro off xs i h
    unfold targetField
    rw [if_neg (by omega)]

/-- Witness for `C7_amended` at rows of the inputs, including a negative
offset whose in-range target is the value two steps back. -/
theorem C7_amended_witness :
    targetField 0 temps3 1 = cellN temps3 1 ∧
    targetField (-2) tempsHead 3 = cellN tempsHead 1 ∧
    targetField (-1) temps3 0 = none ∧
    targetField 1 temps3 2 = none :=
  ⟨C7_amended.2.1 temps3 1 (by decide),
   C7_amended.2.2.1 (-2) tempsHead 3 1 (by decide) (by decide),
   C7_amended.2.2.2 (-1) temps3 0 (Or.inl (by decide)),
   C7_amended.2.2.2 1 temps3 2 (Or.inr (by decide))⟩

/-! ### Claim C8 -/

/-- A malformed configuration is exactly one with a non-positive lag, a
non-positive rolling width, or an unrecognized statistic name. -/
theorem configOk_false_iff (cfg : Config) : configOk cfg = false ↔
    (∃ k ∈ cfg.lags, k ≤ 0) ∨
    (∃ r ∈ cfg.rollingWindows, r.width ≤ 0 ∨ ∃ s ∈ r.stats, s ∉ knownStats) ∨
    (∃ s ∈ cfg.expandingStats, s ∉ knownStats) := by
  rw [Bool.eq_false_iff, Ne]
  simp only [configOk, Bool.and_eq_true, List.all_eq_true, decide_eq_true_eq]
  simp only [not_and_or]
  push_neg
  constructor
  · rintro ((h | ⟨r, hr, himp⟩) | h)
    · exact Or.inl h
    · refine Or.inr (Or.inl ⟨r, hr, ?_⟩)
      by_cases hw : 0 < r.width
      · exact Or.inr (himp hw)
      · exact Or.inl (by omega)
    · exact Or.inr (Or.inr h)
  · rintro (h | ⟨r, hr, hd⟩ | h)
    · exact Or.inl (Or.inl h)
    · refine Or.inl (Or.inr ⟨r, hr, ?_⟩)
      intro hw
      rcases hd with h1 | h2
      · omega
      · exact h2
    · exact Or.inr h

/-- Claim C8: `build` fails with `InvalidConfiguration` exactly when some
lag is non-positive, some rolling width is non-positive, an unrecognized
statistic name is requested, or the sequence is empty; on error no row is
produced.  Missing data never triggers the error: the right-hand side
mentions only the configuration and emptiness, never cell contents. -/
theorem C8_invalid_configuration (xs : List (Option ℚ)) (cfg : Config) :
    (build xs cfg = Except.error BuildError.invalidConfiguration ↔
      xs = [] ∨ (∃ k ∈ cfg.lags, k ≤ 0) ∨
      (∃ r ∈ cfg.rollingWindows, r.width ≤ 0 ∨ ∃ s ∈ r.stats, s ∉ knownStats) ∨
      (∃ s ∈ cfg.expandingStats, s ∉ knownStats)) ∧
    (build xs cfg = Except.error BuildError.invalidConfiguration →
      tableRows (build xs cfg) = []) := by
  constructor
  · unfold build
    by_cases hc : (xs.isEmpty || !configOk cfg) = true
    · rw [if_pos hc]
      simp only [true_iff]
      rw [Bool.or_eq_true] at hc
      rcases hc with h | h
      · exact Or.inl (by simpa using h)
      · exact Or.inr ((configOk_false_iff cfg).mp (by simpa using h))
    · rw [if_neg hc]
      refine iff_of_false (by simp) ?_
      rw [Bool.or_eq_true] at hc
      push_neg at hc
      rcases hc with ⟨h1, h2⟩
      intro hcontra
      rcases hcontra with h | h
      · exact absurd (by simp [h] : xs.isEmpty = true) (by simpa using h1)
      · exact absurd ((configOk_false_iff cfg).mpr h) (by simpa using h2)
  · intro h
    rw [h]
    rfl

/-- Witness for `C8_invalid_configuration`: lag `0` is rejected with no
rows produced, while the valid demonstration configuration is not. -/
theorem C8_invalid_configuration_witness :
    build temps3 cfgBadLag = Except.error BuildError.invalidConfiguration ∧
    tableRows (build temps3 cfgBadLag) = [] ∧
    build temps3 cfgDemo ≠ Except.error BuildError.invalidConfiguration := by
  have herr : build temps3 cfgBadLag = Except.error BuildError.invalidConfiguration :=
    (C8_invalid_configuration temps3 cfgBadLag).1.mpr
      (Or.inr (Or.inl ⟨0, by decide, by decide⟩))
  refine ⟨herr, (C8_invalid_configuration temps3 cfgBadLag).2 herr, ?_⟩
  intro hcontra
  have hbad := (C8_invalid_configuration temps3 cfgDemo).1.mp hcontra
  revert hbad
  decide

/-! ### Claim C9 -/

/-- Claim C9: `build` is a pure function of its two inputs — equal
sequences and equal configurations yield identical results (the model has
no other state a call could read or modify). -/
theorem C9_build_deterministic (xs ys : List (Option ℚ)) (c d : Config)
    (hxy : xs = ys) (hcd : c = d) : build xs c = build ys d := by
  rw [hxy, hcd]

/-- Witness for `C9_build_deterministic`. -/
theorem C9_build_deterministic_witness :
    build temps3 cfgDemo = build temps3 cfgDemo :=
  C9_build_deterministic temps3 temps3 cfgDemo cfgDemo rfl rfl

/-! ### Claim C10 -/

/-- A variant of the five-value input whose last observation is missing. -/
def tempsHeadAlt : List (Option ℚ) :=
  [some (207/10), some (179/10), some (188/10), some (146/10), none]

/-- Claim C10: no target leakage.  Lag fields (`shift(k)`, `k ≥ 1`) and
shift-then-roll rolling fields (`w ≥ 2`, as in both notebook rolling
cells) of row `i` depend only on cells at indices `< i`, the index of that
row's target; expanding fields of row `i` depend only on cells at indices
`< i + 1`, the index of the `shift(-1)` target of the expanding table.
Changing the sequence at or beyond the target index never changes a
feature field. -/
theorem C10_no_target_leakage :
    ∀ (xs ys : List (Option ℚ)) (agg : List ℚ → ℚ) (i : ℕ),
      xs.length = ys.length →
      ((∀ j, j < i → cellN xs j = cellN ys j) →
        (∀ k : ℕ, 1 ≤ k → shiftCell (k : ℤ) xs i = shiftCell (k : ℤ) ys i) ∧
        (∀ w : ℕ, 2 ≤ w → i < xs.length →
          rollCell agg w (shift ((w : ℤ) - 1) xs) i =
            rollCell agg w (shift ((w : ℤ) - 1) ys) i)) ∧
      ((∀ j, j < i + 1 → cellN xs j = cellN ys j) →
        expandCell agg xs i = expandCell agg ys i) := by
  intro xs ys agg i hlen
  constructor
  · intro hagree
    constructor
    · intro k hk
      rw [shiftCell_formula k xs i, shiftCell_formula k ys i]
      by_cases hki : k ≤ i
      · rw [if_pos hki, if_pos hki]
        exact hagree (i - k) (by omega)
      · rw [if_neg hki, if_neg hki]
    · intro w hw hi
      rw [rollCell_shift_eq agg w xs i (by omega) hi,
        rollCell_shift_eq agg w ys i (by omega) (by omega)]
      by_cases hcase : 2 * w ≤ i + 2
      · rw [if_pos hcase, if_pos hcase]
        have hwin : shiftRollWindow xs w i = shiftRollWindow ys w i := by
          unfold shiftRollWindow
          apply List.map_congr_left
          intro j hj
          have hmem := List.mem_range'_1.mp hj
          exact hagree j (by omega)
        rw [hwin]
      · rw [if_neg hcase, if_neg hcase]
  · intro hagree
    rw [expandCell_eq_specStat agg xs i, expandCell_eq_specStat agg ys i]
    have hwin : (List.range (i + 1)).map (cellN xs) =
        (List.range (i + 1)).map (cellN ys) := by
      apply List.map_congr_left
      intro j hj
      exact hagree j (by simpa using hj)
    rw [hwin]

/-- Witness for `C10_no_target_leakage`: two inputs agreeing below the
target index but differing at it yield identical feature fields. -/
theorem C10_no_target_leakage_witness :
    (shiftCell ((1 : ℕ) : ℤ) tempsHead 4 = shiftCell ((1 : ℕ) : ℤ) tempsHeadAlt 4) ∧
    (rollCell meanQ 3 (shift ((3 : ℤ) - 1) tempsHead) 4 =
      rollCell meanQ 3 (shift ((3 : ℤ) - 1) tempsHeadAlt) 4) ∧
    expandCell meanQ tempsHead 3 = expandCell meanQ tempsHeadAlt 3 := by
  have h4 := C10_no_target_leakage tempsHead tempsHeadAlt meanQ 4 rfl
  have h3 := C10_no_target_leakage tempsHead tempsHeadAlt meanQ 3 rfl
  have hag4 : ∀ j, j < 4 → cellN tempsHead j = cellN tempsHeadAlt j := by
    intro j hj
    interval_cases j <;> rfl
  exact ⟨(h4.1 hag4).1 1 (by decide), (h4.1 hag4).2 3 (by decide) (by decide),
    h3.2 hag4⟩

end TSFeatures
